import Mathlib

/-!
Verification development for the lazytunnel SSH tunnel manager.

Each section below is a shallow embedding of one subsystem of the Go
source, translated definition-by-definition:

* `CircuitBreaker` — the tunnel package circuit breaker (`Allow`,
  `RecordSuccess`, `RecordFailure`, `transitionTo`), with wall-clock time
  passed explicitly as a natural number (`now`), matching the source's use
  of `time.Now()` / `time.Since` under a single lock.
* `Retry` — `Session.ConnectWithRetry` from internal/tunnel/session.go,
  with the connect outcome and the cancellation signal supplied as oracles.
* further sections follow below.

Durations are natural numbers of nanoseconds, as in Go's `time.Duration`.
-/

namespace LazyTunnel

/-! ## Circuit breaker (`CircuitBreaker` in the tunnel package)

The Go struct fields `maxFailures`, `timeout`, `recoveryTimeout`,
`failures`, `lastFailure`, `state`, `stateChanged` are carried verbatim.
The mutex is dropped (every operation here is a whole-critical-section
state transformer).  `time.Since(t)` evaluated at time `now` is `now - t`.
-/

inductive CircuitBreakerState
  | stateClosed
  | stateOpen
  | stateHalfOpen
  deriving DecidableEq, Repr

structure CircuitBreaker where
  maxFailures : Nat
  timeout : Nat
  recoveryTimeout : Nat
  failures : Nat
  lastFailure : Nat
  state : CircuitBreakerState
  stateChanged : Nat
  deriving DecidableEq, Repr

structure CircuitBreakerConfig where
  maxFailures : Nat
  timeout : Nat
  recoveryTimeout : Nat
  deriving DecidableEq, Repr

def DefaultCircuitBreakerConfig : CircuitBreakerConfig :=
  { maxFailures := 5, timeout := 30000000000, recoveryTimeout := 60000000000 }

/-- `NewCircuitBreaker` from the source: nonpositive config values (here:
zero, since counts and durations are naturals) are replaced by the defaults,
and the breaker starts `Closed` with `stateChanged = now`. -/
def NewCircuitBreaker (config : CircuitBreakerConfig) (now : Nat) : CircuitBreaker :=
  let mf := if config.maxFailures = 0 then 5 else config.maxFailures
  let tmo := if config.timeout = 0 then 30000000000 else config.timeout
  let rt := if config.recoveryTimeout = 0 then 60000000000 else config.recoveryTimeout
  { maxFailures := mf, timeout := tmo, recoveryTimeout := rt,
    failures := 0, lastFailure := 0, state := .stateClosed, stateChanged := now }

/-- `transitionTo`: set the new state, stamp `stateChanged`, and reset the
failure counter when moving to `Closed` or `Open`. -/
def CircuitBreaker.transitionTo (cb : CircuitBreaker) (newState : CircuitBreakerState)
    (now : Nat) : CircuitBreaker :=
  let cb1 := { cb with state := newState, stateChanged := now }
  if newState = .stateClosed ∨ newState = .stateOpen then
    { cb1 with failures := 0 }
  else
    cb1

/-- Result of `CircuitBreaker.Allow`: `allowed` models a `nil` error return,
`circuitOpenError` models the distinct wrapped `ErrCircuitOpen` error.  (The
Go `default:` branch is unreachable with a three-valued state and is
omitted.) -/
inductive AllowResult
  | allowed
  | circuitOpenError
  deriving DecidableEq, Repr

/-- `Allow` at wall-clock time `now`. -/
def CircuitBreaker.Allow (cb : CircuitBreaker) (now : Nat) : CircuitBreaker × AllowResult :=
  match cb.state with
  | .stateClosed => (cb, .allowed)
  | .stateOpen =>
      if now - cb.stateChanged > cb.recoveryTimeout then
        (cb.transitionTo .stateHalfOpen now, .allowed)
      else
        (cb, .circuitOpenError)
  | .stateHalfOpen => (cb, .allowed)

/-- `RecordSuccess` at wall-clock time `now` (the time is consumed only via
`transitionTo` when leaving half-open). -/
def CircuitBreaker.RecordSuccess (cb : CircuitBreaker) (now : Nat) : CircuitBreaker :=
  match cb.state with
  | .stateHalfOpen => { cb.transitionTo .stateClosed now with failures := 0 }
  | .stateClosed => { cb with failures := 0 }
  | .stateOpen => cb

/-- `RecordFailure` at wall-clock time `now`.  The Go method increments the
counter and stamps `lastFailure` first, then switches on the (unchanged)
state; the threshold test reads the incremented counter. -/
def CircuitBreaker.RecordFailure (cb : CircuitBreaker) (now : Nat) : CircuitBreaker :=
  let cb1 := { cb with failures := cb.failures + 1, lastFailure := now }
  match cb.state with
  | .stateHalfOpen => cb1.transitionTo .stateOpen now
  | .stateClosed =>
      if cb1.failures ≥ cb1.maxFailures then cb1.transitionTo .stateOpen now else cb1
  | .stateOpen => cb1

/-- `k` consecutive `RecordFailure` calls with no interleaving success. -/
def CircuitBreaker.recordFailures (cb : CircuitBreaker) (now : Nat) : Nat → CircuitBreaker
  | 0 => cb
  | k + 1 => ((cb.recordFailures now k).RecordFailure now)

lemma CircuitBreaker.closed_recordFailures_below (cb : CircuitBreaker) (now : Nat)
    (h1 : cb.state = .stateClosed) (h2 : cb.failures = 0) :
    ∀ k, k < cb.maxFailures →
      (cb.recordFailures now k).state = .stateClosed ∧
      (cb.recordFailures now k).failures = k ∧
      (cb.recordFailures now k).maxFailures = cb.maxFailures := by
  intro k
  induction k with
  | zero => intro _; exact ⟨h1, h2, rfl⟩
  | succ n ih =>
      intro hlt
      obtain ⟨hs, hf, hm⟩ := ih (Nat.lt_of_succ_lt hlt)
      have hno : ¬ ((cb.recordFailures now n).failures + 1 ≥ (cb.recordFailures now n).maxFailures) := by
        rw [hf, hm]; omega
      simp only [CircuitBreaker.recordFailures, CircuitBreaker.RecordFailure, hs, if_neg hno]
      simp [hf, hm]

/-- C3: from a `Closed` breaker with a zero failure counter and a positive
threshold, (a) exactly `maxFailures` consecutive `RecordFailure` calls leave
the breaker `Open` with the counter reset to 0, (b) any fewer leave it
`Closed`, and (c) a single `RecordSuccess` in `Closed` resets the counter to
0 and keeps the state `Closed`. -/
theorem C3_closed_failure_counting (cb : CircuitBreaker) (now : Nat)
    (h1 : cb.state = .stateClosed) (h2 : cb.failures = 0) (h3 : 0 < cb.maxFailures) :
    ((cb.recordFailures now cb.maxFailures).state = .stateOpen ∧
      (cb.recordFailures now cb.maxFailures).failures = 0) ∧
    (∀ k, k < cb.maxFailures → (cb.recordFailures now k).state = .stateClosed) ∧
    ((cb.RecordSuccess now).failures = 0 ∧ (cb.RecordSuccess now).state = .stateClosed) := by
  refine ⟨?_, ?_, ?_⟩
  · obtain ⟨m, hm⟩ : ∃ m, cb.maxFailures = m + 1 := ⟨cb.maxFailures - 1, by omega⟩
    have hbelow := cb.closed_recordFailures_below now h1 h2 m (by omega)
    obtain ⟨hs, hf, hmax⟩ := hbelow
    have hge : (cb.recordFailures now m).failures + 1 ≥ (cb.recordFailures now m).maxFailures := by
      rw [hf, hmax]; omega
    rw [hm]
    simp only [CircuitBreaker.recordFailures, CircuitBreaker.RecordFailure, hs, if_pos hge,
      CircuitBreaker.transitionTo]
    simp
  · intro k hk
    exact (cb.closed_recordFailures_below now h1 h2 k hk).1
  · simp [CircuitBreaker.RecordSuccess, h1]

/-- Closed-form witness for `C3_closed_failure_counting` on a concrete
breaker (threshold 3). -/
theorem C3_closed_failure_counting_witness :
    (let cb : CircuitBreaker :=
      { maxFailures := 3, timeout := 30, recoveryTimeout := 60,
        failures := 0, lastFailure := 0, state := .stateClosed, stateChanged := 0 };
     ((cb.recordFailures 7 cb.maxFailures).state = .stateOpen ∧
       (cb.recordFailures 7 cb.maxFailures).failures = 0) ∧
     ((cb.recordFailures 7 2).state = .stateClosed) ∧
     ((cb.RecordSuccess 7).failures = 0 ∧ (cb.RecordSuccess 7).state = .stateClosed)) := by
  have h := C3_closed_failure_counting
    { maxFailures := 3, timeout := 30, recoveryTimeout := 60,
      failures := 0, lastFailure := 0, state := .stateClosed, stateChanged := 0 }
    7 rfl rfl (by decide)
  exact ⟨h.1, h.2.1 2 (by decide), h.2.2⟩

/-- C4 (amended): in `Open`, `Allow` is refused with the distinct
circuit-open error while the time since entering `Open` is at most
`recoveryTimeout`; the first `Allow` strictly after that transitions to
`Half-Open` (stamping `stateChanged`) and is allowed.  In `Half-Open` the
code permits every `Allow` (it does not limit the state to a single probe);
`RecordSuccess` transitions to `Closed` with the counter reset, and
`RecordFailure` transitions back to `Open` with the counter reset to 0 and
the timer (`stateChanged`) reset to the current time. -/
theorem C4_open_halfOpen_behaviour (cb cb2 : CircuitBreaker) (now t : Nat)
    (hOpen : cb.state = .stateOpen) (hHalf : cb2.state = .stateHalfOpen) :
    ((now - cb.stateChanged ≤ cb.recoveryTimeout → cb.Allow now = (cb, .circuitOpenError)) ∧
     (cb.recoveryTimeout < now - cb.stateChanged →
        (cb.Allow now).2 = .allowed ∧
        (cb.Allow now).1.state = .stateHalfOpen ∧
        (cb.Allow now).1.stateChanged = now)) ∧
    ((cb2.Allow t).2 = .allowed ∧ (cb2.Allow t).1 = cb2) ∧
    ((cb2.RecordSuccess t).state = .stateClosed ∧ (cb2.RecordSuccess t).failures = 0) ∧
    ((cb2.RecordFailure t).state = .stateOpen ∧ (cb2.RecordFailure t).failures = 0 ∧
      (cb2.RecordFailure t).stateChanged = t) := by
  refine ⟨⟨?_, ?_⟩, ?_, ?_, ?_⟩
  · intro hle
    simp only [CircuitBreaker.Allow, hOpen]
    rw [if_neg (by omega)]
  · intro hgt
    simp only [CircuitBreaker.Allow, hOpen]
    rw [if_pos (by omega)]
    exact ⟨rfl, rfl, rfl⟩
  · simp [CircuitBreaker.Allow, hHalf]
  · simp [CircuitBreaker.RecordSuccess, CircuitBreaker.transitionTo, hHalf]
  · simp [CircuitBreaker.RecordFailure, CircuitBreaker.transitionTo, hHalf]

/-- Closed-form witness for `C4_open_halfOpen_behaviour` on concrete
breakers: refusal at time 30 (before the recovery timeout of 50 ns has
elapsed), transition to half-open at time 60, and the half-open
transitions. -/
theorem C4_open_halfOpen_behaviour_witness :
    (let cb : CircuitBreaker :=
      { maxFailures := 5, timeout := 30, recoveryTimeout := 50,
        failures := 0, lastFailure := 0, state := .stateOpen, stateChanged := 0 };
     let cb2 : CircuitBreaker :=
      { maxFailures := 5, timeout := 30, recoveryTimeout := 50,
        failures := 2, lastFailure := 0, state := .stateHalfOpen, stateChanged := 10 };
     (cb.Allow 30 = (cb, .circuitOpenError)) ∧
     ((cb.Allow 60).2 = .allowed ∧
       (cb.Allow 60).1.state = .stateHalfOpen ∧
       (cb.Allow 60).1.stateChanged = 60) ∧
     ((cb2.Allow 61).2 = .allowed ∧ (cb2.Allow 61).1 = cb2) ∧
     ((cb2.RecordSuccess 61).state = .stateClosed ∧ (cb2.RecordSuccess 61).failures = 0) ∧
     ((cb2.RecordFailure 61).state = .stateOpen ∧ (cb2.RecordFailure 61).failures = 0 ∧
       (cb2.RecordFailure 61).stateChanged = 61)) := by
  have h30 := C4_open_halfOpen_behaviour
    { maxFailures := 5, timeout := 30, recoveryTimeout := 50,
      failures := 0, lastFailure := 0, state := .stateOpen, stateChanged := 0 }
    { maxFailures := 5, timeout := 30, recoveryTimeout := 50,
      failures := 2, lastFailure := 0, state := .stateHalfOpen, stateChanged := 10 }
    30 61 rfl rfl
  have h60 := C4_open_halfOpen_behaviour
    { maxFailures := 5, timeout := 30, recoveryTimeout := 50,
      failures := 0, lastFailure := 0, state := .stateOpen, stateChanged := 0 }
    { maxFailures := 5, timeout := 30, recoveryTimeout := 50,
      failures := 2, lastFailure := 0, state := .stateHalfOpen, stateChanged := 10 }
    60 61 rfl rfl
  exact ⟨h30.1.1 (by decide), h60.1.2 (by decide), h30.2.1, h30.2.2.1, h30.2.2.2⟩

/-- Counterexample to C4 as stated: in `Half-Open` the breaker is *not*
limited to a single probe.  Starting from a fresh breaker with threshold 1
and recovery timeout 50, one failure opens the circuit; the first `Allow`
after the timeout moves it to `Half-Open`, and then two further `Allow`
calls — with no `RecordSuccess`/`RecordFailure` in between — are *both*
allowed, while the state remains `Half-Open`. -/
theorem C4_halfOpen_multiple_probes_counterexample :
    (let cb0 := NewCircuitBreaker { maxFailures := 1, timeout := 30, recoveryTimeout := 50 } 0;
     let cbOpen := cb0.RecordFailure 0;
     let a1 := cbOpen.Allow 60;
     let a2 := a1.1.Allow 61;
     let a3 := a2.1.Allow 62;
     cbOpen.state = .stateOpen ∧
     a1.2 = .allowed ∧ a1.1.state = .stateHalfOpen ∧
     a2.2 = .allowed ∧ a2.1.state = .stateHalfOpen ∧
     a3.2 = .allowed) :=
  ⟨rfl, rfl, rfl, rfl, rfl, rfl⟩

/-! ## `Session.ConnectWithRetry` (internal/tunnel/session.go)

The Go loop is
`for attempt := 0; attempt <= s.maxRetries; attempt++ { select ctx.Done default;
Connect; on success return nil; if attempt < maxRetries { select time.After(backoff)
| ctx.Done; backoff *= multiplier; if backoff > max { backoff = max } } }`.

The network outcome of attempt `i` is the oracle `connectOk i`; whether the
cancellation signal has fired at the top-of-loop check of iteration `i` is
`cancelTop i`, and whether it fires during the backoff sleep after attempt
`i` is `cancelSleep i`.  The loop is embedded with explicit fuel
(`maxRetries + 1` iterations at most, exactly the Go bound).  The source's
`Multiplier` is a `float64`; with the default `2.0` and nanosecond durations
below `2^52` the float computation `time.Duration(float64(backoff) *
multiplier)` is exact, so the multiplier is modelled as a natural number. -/

structure BackoffConfig where
  initial : Nat
  max : Nat
  multiplier : Nat
  deriving DecidableEq, Repr

/-- `DefaultBackoffConfig`: initial 1 s, cap 60 s, multiplier 2.0. -/
def DefaultBackoffConfig : BackoffConfig :=
  { initial := 1000000000, max := 60000000000, multiplier := 2 }

inductive RetryEvent
  | connectAttempt (i : Nat)
  | backoffSleep (d : Nat)
  deriving DecidableEq, Repr

inductive RetryResult
  | connected
  | ctxCancelled
  | exhaustedRetries
  deriving DecidableEq, Repr

/-- One pass of the retry loop; `fuel` is the number of loop iterations still
permitted (`maxRetries + 1` at the top call), `i` the current attempt index,
`backoff` the current backoff duration. -/
def connectWithRetryAux (connectOk cancelTop cancelSleep : Nat → Bool)
    (maxRetries : Nat) (cfg : BackoffConfig) :
    Nat → Nat → Nat → List RetryEvent × RetryResult
  | 0, _, _ => ([], .exhaustedRetries)
  | fuel + 1, i, backoff =>
    if cancelTop i then ([], .ctxCancelled)
    else if connectOk i then ([.connectAttempt i], .connected)
    else if i < maxRetries then
      if cancelSleep i then ([.connectAttempt i], .ctxCancelled)
      else
        let next := if backoff * cfg.multiplier > cfg.max then cfg.max
                    else backoff * cfg.multiplier
        let rest := connectWithRetryAux connectOk cancelTop cancelSleep maxRetries cfg
          fuel (i + 1) next
        (.connectAttempt i :: .backoffSleep backoff :: rest.1, rest.2)
    else
      ([.connectAttempt i], .exhaustedRetries)

/-- `ConnectWithRetry`, as a trace of attempts and sleeps plus the final
result. -/
def ConnectWithRetry (connectOk cancelTop cancelSleep : Nat → Bool)
    (maxRetries : Nat) (cfg : BackoffConfig) : List RetryEvent × RetryResult :=
  connectWithRetryAux connectOk cancelTop cancelSleep maxRetries cfg
    (maxRetries + 1) 0 cfg.initial

/-- The backoff value used for the `j`-th sleep: starts at `initial`,
multiplies by `multiplier` after each sleep, capped at `max` (cap applied
after the multiplication, as in the source). -/
def backoffSeq (cfg : BackoffConfig) : Nat → Nat
  | 0 => cfg.initial
  | j + 1 =>
      if backoffSeq cfg j * cfg.multiplier > cfg.max then cfg.max
      else backoffSeq cfg j * cfg.multiplier

def attemptCount (tr : List RetryEvent) : Nat :=
  tr.countP (fun e => match e with | .connectAttempt _ => true | _ => false)

def sleepDurations : List RetryEvent → List Nat
  | [] => []
  | .backoffSleep d :: rest => d :: sleepDurations rest
  | _ :: rest => sleepDurations rest

lemma attemptCount_aux_le (connectOk cancelTop cancelSleep : Nat → Bool)
    (maxRetries : Nat) (cfg : BackoffConfig) :
    ∀ fuel i backoff,
      attemptCount (connectWithRetryAux connectOk cancelTop cancelSleep maxRetries cfg
        fuel i backoff).1 ≤ fuel := by
  intro fuel
  induction fuel with
  | zero => intro i backoff; simp [connectWithRetryAux, attemptCount]
  | succ n ih =>
      intro i backoff
      simp only [connectWithRetryAux]
      split
      · simp [attemptCount]
      · split
        · simp [attemptCount]
        · split
          · split
            · simp [attemptCount]
            · generalize (if backoff * cfg.multiplier > cfg.max then cfg.max
                 else backoff * cfg.multiplier) = nb
              have h := ih (i + 1) nb
              simp only [attemptCount] at h ⊢
              simp [List.countP_cons]
              omega
          · simp [attemptCount]

lemma sleepDurations_aux (connectOk cancelTop cancelSleep : Nat → Bool)
    (maxRetries : Nat) (cfg : BackoffConfig) :
    ∀ fuel i,
      ∃ k, sleepDurations (connectWithRetryAux connectOk cancelTop cancelSleep maxRetries cfg
        fuel i (backoffSeq cfg i)).1 = (List.range' i k).map (backoffSeq cfg) := by
  intro fuel
  induction fuel with
  | zero => intro i; exact ⟨0, by simp [connectWithRetryAux, sleepDurations]⟩
  | succ n ih =>
      intro i
      simp only [connectWithRetryAux]
      split
      · exact ⟨0, by simp [sleepDurations]⟩
      · split
        · exact ⟨0, by simp [sleepDurations]⟩
        · split
          · split
            · exact ⟨0, by simp [sleepDurations]⟩
            · obtain ⟨k, hk⟩ := ih (i + 1)
              refine ⟨k + 1, ?_⟩
              have hnext :
                  (if backoffSeq cfg i * cfg.multiplier > cfg.max then cfg.max
                   else backoffSeq cfg i * cfg.multiplier) = backoffSeq cfg (i + 1) := by
                simp [backoffSeq]
              simp only [sleepDurations, hnext, hk, List.range'_succ, List.map_cons]
          · exact ⟨0, by simp [sleepDurations]⟩

lemma backoffSeq_closed_form (cfg : BackoffConfig)
    (hinit : cfg.initial ≤ cfg.max) (hmult : 1 ≤ cfg.multiplier) :
    ∀ j, backoffSeq cfg j = min (cfg.initial * cfg.multiplier ^ j) cfg.max := by
  intro j
  induction j with
  | zero => simp [backoffSeq, Nat.min_eq_left hinit]
  | succ n ih =>
      have hPm : cfg.initial * cfg.multiplier ^ n ≤
          cfg.initial * cfg.multiplier ^ n * cfg.multiplier := by
        calc cfg.initial * cfg.multiplier ^ n
            = cfg.initial * cfg.multiplier ^ n * 1 := by ring
          _ ≤ cfg.initial * cfg.multiplier ^ n * cfg.multiplier :=
              Nat.mul_le_mul (Nat.le_refl _) hmult
      have hMm : cfg.max ≤ cfg.max * cfg.multiplier := by
        calc cfg.max = cfg.max * 1 := by ring
          _ ≤ cfg.max * cfg.multiplier := Nat.mul_le_mul (Nat.le_refl _) hmult
      have hpow : cfg.initial * cfg.multiplier ^ (n + 1)
          = cfg.initial * cfg.multiplier ^ n * cfg.multiplier := by ring
      simp only [backoffSeq, ih, hpow]
      rcases Nat.le_total (cfg.initial * cfg.multiplier ^ n) cfg.max with hle | hge
      · rw [Nat.min_eq_left hle]
        split
        · next hgt => rw [Nat.min_eq_right (by omega)]
        · next hngt => rw [Nat.min_eq_left (by omega)]
      · rw [Nat.min_eq_right hge]
        have hup : cfg.max ≤ cfg.initial * cfg.multiplier ^ n * cfg.multiplier := by omega
        rw [Nat.min_eq_right hup]
        split
        · rfl
        · next hngt => omega

lemma cancel_abort_aux (connectOk cancelTop cancelSleep : Nat → Bool)
    (maxRetries : Nat) (cfg : BackoffConfig)
    (hfail : ∀ x, connectOk x = false) (hsleep : ∀ x, cancelSleep x = false) :
    ∀ fuel i backoff j, j < fuel → i + j ≤ maxRetries →
      cancelTop (i + j) = true →
      (∀ x, i ≤ x → x < i + j → cancelTop x = false) →
      (connectWithRetryAux connectOk cancelTop cancelSleep maxRetries cfg
        fuel i backoff).2 = .ctxCancelled ∧
      attemptCount (connectWithRetryAux connectOk cancelTop cancelSleep maxRetries cfg
        fuel i backoff).1 = j := by
  intro fuel
  induction fuel with
  | zero => intro i backoff j hj; omega
  | succ n ih =>
      intro i backoff j hj hle hcancel hbefore
      match j with
      | 0 =>
          simp only [Nat.add_zero] at hcancel
          simp [connectWithRetryAux, hcancel, attemptCount]
      | k + 1 =>
          have hnotTop : cancelTop i = false := hbefore i (Nat.le_refl i) (by omega)
          have hlt : i < maxRetries := by omega
          simp only [connectWithRetryAux, hnotTop, hfail i, hsleep i, hlt,
            Bool.false_eq_true, if_false, if_true, if_pos hlt]
          generalize (if backoff * cfg.multiplier > cfg.max then cfg.max
             else backoff * cfg.multiplier) = nb
          have hrec := ih (i + 1) nb k (by omega) (by omega)
            (by rw [show i + 1 + k = i + (k + 1) by omega]; exact hcancel)
            (by intro x hx1 hx2; exact hbefore x (by omega) (by omega))
          constructor
          · exact hrec.1
          · simp only [attemptCount] at hrec ⊢
            simp [List.countP_cons]
            omega

lemma allfail_counts_aux (connectOk cancelTop cancelSleep : Nat → Bool)
    (maxRetries : Nat) (cfg : BackoffConfig)
    (hfail : ∀ x, connectOk x = false) (htop : ∀ x, cancelTop x = false)
    (hsleep : ∀ x, cancelSleep x = false) :
    ∀ fuel i backoff, 0 < fuel → i + fuel = maxRetries + 1 →
      attemptCount (connectWithRetryAux connectOk cancelTop cancelSleep maxRetries cfg
        fuel i backoff).1 = fuel ∧
      (sleepDurations (connectWithRetryAux connectOk cancelTop cancelSleep maxRetries cfg
        fuel i backoff).1).length = fuel - 1 ∧
      (connectWithRetryAux connectOk cancelTop cancelSleep maxRetries cfg
        fuel i backoff).2 = .exhaustedRetries := by
  intro fuel
  induction fuel with
  | zero => intro i backoff h0; omega
  | succ n ih =>
      intro i backoff _ hsum
      rcases Nat.eq_zero_or_pos n with hn | hn
      · subst hn
        have hnotlt : ¬ i < maxRetries := by omega
        simp [connectWithRetryAux, htop i, hfail i, hnotlt, attemptCount, sleepDurations]
      · have hlt : i < maxRetries := by omega
        simp only [connectWithRetryAux, htop i, hfail i, if_pos hlt, hsleep i,
          Bool.false_eq_true, if_false, if_true]
        generalize (if backoff * cfg.multiplier > cfg.max then cfg.max
           else backoff * cfg.multiplier) = nb
        have hrec := ih (i + 1) nb hn (by omega)
        refine ⟨?_, ?_, hrec.2.2⟩
        · simp only [attemptCount] at hrec ⊢
          simp [List.countP_cons]
          omega
        · simp only [sleepDurations] at hrec ⊢
          simp only [List.length_cons]
          omega

/-- C2: for every backoff configuration, connect-outcome oracle and
cancellation schedule, `ConnectWithRetry` (a) makes at most
`maxRetries + 1` connect attempts, (b) sleeps, between consecutive
attempts, for exactly the backoff sequence that starts at `initial` and is
multiplied by `multiplier` then capped at `max` after each sleep — with the
default configuration this is `min (2^j * 1 s) (60 s)` for the `j`-th
sleep — (c) when every attempt fails and the cancellation signal never
fires, makes exactly `maxRetries + 1` attempts with a sleep between each
consecutive pair, and (d) aborts early upon cancellation: if all attempts
fail and the signal first fires before attempt `j ≤ maxRetries`, the call
returns the cancellation error having made exactly `j` attempts. -/
theorem C2_connectWithRetry_backoff (connectOk cancelTop cancelSleep : Nat → Bool)
    (maxRetries : Nat) (cfg : BackoffConfig) :
    attemptCount (ConnectWithRetry connectOk cancelTop cancelSleep maxRetries cfg).1
      ≤ maxRetries + 1 ∧
    (∃ k, sleepDurations
        (ConnectWithRetry connectOk cancelTop cancelSleep maxRetries cfg).1 =
      (List.range k).map (backoffSeq cfg)) ∧
    (backoffSeq cfg 0 = cfg.initial ∧
      ∀ j, backoffSeq cfg (j + 1) = min (backoffSeq cfg j * cfg.multiplier) cfg.max) ∧
    (∀ j, backoffSeq DefaultBackoffConfig j = min (1000000000 * 2 ^ j) 60000000000) ∧
    ((∀ x, connectOk x = false) → (∀ x, cancelTop x = false) →
      (∀ x, cancelSleep x = false) →
      attemptCount (ConnectWithRetry connectOk cancelTop cancelSleep maxRetries cfg).1 =
        maxRetries + 1 ∧
      (sleepDurations
        (ConnectWithRetry connectOk cancelTop cancelSleep maxRetries cfg).1).length =
        maxRetries ∧
      (ConnectWithRetry connectOk cancelTop cancelSleep maxRetries cfg).2 =
        .exhaustedRetries) ∧
    ((∀ x, connectOk x = false) → (∀ x, cancelSleep x = false) →
      ∀ j, j ≤ maxRetries → cancelTop j = true →
        (∀ x, x < j → cancelTop x = false) →
        (ConnectWithRetry connectOk cancelTop cancelSleep maxRetries cfg).2 =
          .ctxCancelled ∧
        attemptCount (ConnectWithRetry connectOk cancelTop cancelSleep maxRetries cfg).1
          = j) := by
  refine ⟨?_, ?_, ⟨rfl, ?_⟩, ?_, ?_, ?_⟩
  · exact attemptCount_aux_le connectOk cancelTop cancelSleep maxRetries cfg _ 0 cfg.initial
  · have h := sleepDurations_aux connectOk cancelTop cancelSleep maxRetries cfg
      (maxRetries + 1) 0
    simpa [ConnectWithRetry, backoffSeq, List.range_eq_range'] using h
  · intro j
    simp only [backoffSeq]
    rcases Nat.le_total (backoffSeq cfg j * cfg.multiplier) cfg.max with hle | hge
    · rw [if_neg (by omega), Nat.min_eq_left hle]
    · rcases Nat.lt_or_ge cfg.max (backoffSeq cfg j * cfg.multiplier) with hlt | hge2
      · rw [if_pos hlt, Nat.min_eq_right (by omega)]
      · have : backoffSeq cfg j * cfg.multiplier = cfg.max := by omega
        rw [this]; simp
  · intro j
    have := backoffSeq_closed_form DefaultBackoffConfig (by decide) (by decide) j
    simpa [DefaultBackoffConfig, Nat.mul_comm] using this
  · intro hfail htop hsleep
    have := allfail_counts_aux connectOk cancelTop cancelSleep maxRetries cfg
      hfail htop hsleep (maxRetries + 1) 0 cfg.initial (by omega) (by omega)
    simpa [ConnectWithRetry] using this
  · intro hfail hsleep j hj hcancel hbefore
    have := cancel_abort_aux connectOk cancelTop cancelSleep maxRetries cfg hfail hsleep
      (maxRetries + 1) 0 cfg.initial j (by omega) (by omega)
      (by simpa using hcancel) (by intro x _ hx; exact hbefore x (by omega))
    simpa [ConnectWithRetry] using this

/-- Closed-form witness for `C2_connectWithRetry_backoff`: all attempts
fail, cancellation fires first at attempt 2 of a 3-retry session with the
default backoff. -/
theorem C2_connectWithRetry_backoff_witness :
    ((ConnectWithRetry (fun _ => false) (fun x => 2 ≤ x) (fun _ => false) 3
        DefaultBackoffConfig).2 = .ctxCancelled ∧
      attemptCount (ConnectWithRetry (fun _ => false) (fun x => 2 ≤ x) (fun _ => false) 3
        DefaultBackoffConfig).1 = 2) :=
  (C2_connectWithRetry_backoff (fun _ => false) (fun x => 2 ≤ x) (fun _ => false) 3
      DefaultBackoffConfig).2.2.2.2.2
    (fun _ => rfl) (fun _ => rfl) 2 (by decide) (by decide)
    (fun x hx => by
      simp only [decide_eq_false_iff_not]
      omega)

/-! ## `MultiHopSession.Connect` (internal/tunnel/session.go)

`Connect` first calls `ConnectWithRetry` on hop 0, then for each `i ≥ 1`
dials `host_i:port_i` through hop `i-1` and hands the stream to hop `i`'s
`connectOverConn`.  On a dial failure it returns the error immediately; on a
handshake failure it closes the freshly dialed stream (`conn.Close()`) and
returns the error.  The method body contains no call to `Session.Close` on
any hop: sessions opened for earlier hops are left as they are.  Network
outcomes are oracles: `hop0Ok` for hop 0's `ConnectWithRetry`, `dialOk i`
for the dial to hop `i`, `handshakeOk i` for hop `i`'s SSH handshake. -/

structure HopSession where
  connected : Bool
  closeCalled : Bool
  deriving DecidableEq, Repr

inductive MHConnectError
  | hop0ConnectFailed
  | dialHopFailed (i : Nat)
  | sshHandshakeFailed (i : Nat)
  deriving DecidableEq, Repr

structure MHConnectResult where
  sessions : List HopSession
  dialedConnClosed : Bool
  error : Option MHConnectError
  deriving DecidableEq, Repr

/-- The `for i := 1; i < len(mhs.hops); i++` loop of `Connect`.  `acc` holds
the sessions of the hops already connected (all `connected`, none closed),
`remaining` the number of hops still to do, `i` the current hop index. -/
def mhConnectAux (dialOk handshakeOk : Nat → Bool) :
    Nat → Nat → List HopSession → MHConnectResult
  | 0, _, acc => { sessions := acc, dialedConnClosed := false, error := none }
  | remaining + 1, i, acc =>
      if dialOk i then
        if handshakeOk i then
          mhConnectAux dialOk handshakeOk remaining (i + 1)
            (acc ++ [{ connected := true, closeCalled := false }])
        else
          { sessions := acc ++ List.replicate (remaining + 1)
              { connected := false, closeCalled := false },
            dialedConnClosed := true, error := some (.sshHandshakeFailed i) }
      else
        { sessions := acc ++ List.replicate (remaining + 1)
            { connected := false, closeCalled := false },
          dialedConnClosed := false, error := some (.dialHopFailed i) }

/-- `MultiHopSession.Connect` over a chain of `n` hops. -/
def MultiHopConnect (hop0Ok : Bool) (dialOk handshakeOk : Nat → Bool) (n : Nat) :
    MHConnectResult :=
  if n = 0 then { sessions := [], dialedConnClosed := false, error := none }
  else if hop0Ok then
    mhConnectAux dialOk handshakeOk (n - 1) 1
      [{ connected := true, closeCalled := false }]
  else
    { sessions := List.replicate n { connected := false, closeCalled := false },
      dialedConnClosed := false, error := some .hop0ConnectFailed }

/-- `MultiHopSession.Close`: closes every hop session in order. -/
def MultiHopClose (r : MHConnectResult) : MHConnectResult :=
  { r with sessions :=
      r.sessions.map fun s => { s with connected := false, closeCalled := true } }

lemma mhConnectAux_opened_left_open (dialOk handshakeOk : Nat → Bool) :
    ∀ remaining i acc,
      (∀ j, j < acc.length →
        acc.getD j { connected := false, closeCalled := false }
          = { connected := true, closeCalled := false }) →
      acc.length = i →
      ∀ e, (mhConnectAux dialOk handshakeOk remaining i acc).error = some e →
        ∀ i0, (e = .dialHopFailed i0 ∨ e = .sshHandshakeFailed i0) →
          (∀ j, j < i0 →
            (mhConnectAux dialOk handshakeOk remaining i acc).sessions.getD j
              { connected := false, closeCalled := false }
              = { connected := true, closeCalled := false }) ∧
          ((mhConnectAux dialOk handshakeOk remaining i acc).dialedConnClosed
            = (e matches .sshHandshakeFailed _)) := by
  intro remaining
  induction remaining with
  | zero =>
      intro i acc hacc hlen e he
      simp [mhConnectAux] at he
  | succ n ih =>
      intro i acc hacc hlen e he i0 hi0
      by_cases hdial : dialOk i = true
      · by_cases hshake : handshakeOk i = true
        · simp only [mhConnectAux, hdial, hshake, if_true] at he ⊢
          refine ih (i + 1) (acc ++ [{ connected := true, closeCalled := false }]) ?_ ?_ e he i0 hi0
          · intro j hj
            simp only [List.length_append, List.length_singleton] at hj
            rcases Nat.lt_or_ge j acc.length with hja | hja
            · rw [List.getD_append _ _ _ _ hja]; exact hacc j hja
            · have hj1 : j = acc.length := by omega
              subst hj1
              rw [List.getD_append_right _ _ _ _ (Nat.le_refl _)]
              simp
          · simp [hlen]
        · simp only [mhConnectAux, hdial, hshake, Bool.false_eq_true, if_true, if_false] at he ⊢
          have he2 : e = MHConnectError.sshHandshakeFailed i := by
            exact Option.some.inj he.symm ▸ rfl
          have hieq : i0 = i := by
            rcases hi0 with h | h <;> rw [he2] at h <;> cases h
            rfl
          subst hieq
          refine ⟨?_, ?_⟩
          · intro j hj
            rw [List.getD_append _ _ _ _ (by omega)]
            exact hacc j (by omega)
          · rw [he2]
      · simp only [mhConnectAux, hdial, Bool.false_eq_true, if_false] at he ⊢
        have he2 : e = MHConnectError.dialHopFailed i := by
          exact Option.some.inj he.symm ▸ rfl
        have hieq : i0 = i := by
          rcases hi0 with h | h <;> rw [he2] at h <;> cases h
          rfl
        subst hieq
        refine ⟨?_, ?_⟩
        · intro j hj
          rw [List.getD_append _ _ _ _ (by omega)]
          exact hacc j (by omega)
        · rw [he2]

/-- C5 (amended): if `MultiHopSession.Connect` fails partway — the dial to
hop `i0` through hop `i0 - 1` fails, or hop `i0`'s SSH handshake over the
tunneled stream fails — `Connect` returns the error having closed *no*
already-opened hop session: every session for hops `0 .. i0 - 1` is still
connected and `Session.Close` was never called on it.  Only the freshly
dialed stream to hop `i0` is closed, and only in the handshake-failure
case.  The opened sessions are closed only by a later
`MultiHopSession.Close`, which closes every hop. -/
theorem C5_partial_connect_leaves_sessions_open
    (hop0Ok : Bool) (dialOk handshakeOk : Nat → Bool) (n i0 : Nat) :
    (∀ e, (MultiHopConnect hop0Ok dialOk handshakeOk n).error = some e →
      (e = .dialHopFailed i0 ∨ e = .sshHandshakeFailed i0) →
      (∀ j, j < i0 →
        (MultiHopConnect hop0Ok dialOk handshakeOk n).sessions.getD j
            { connected := false, closeCalled := false }
          = { connected := true, closeCalled := false }) ∧
      ((MultiHopConnect hop0Ok dialOk handshakeOk n).dialedConnClosed
        = (e matches .sshHandshakeFailed _))) ∧
    (∀ s, s ∈ (MultiHopClose (MultiHopConnect hop0Ok dialOk handshakeOk n)).sessions →
      s.closeCalled = true) := by
  constructor
  · intro e he hi0
    rcases Nat.eq_zero_or_pos n with hn | hn
    · subst hn
      simp [MultiHopConnect] at he
    · by_cases h0 : hop0Ok
      · simp only [MultiHopConnect, if_neg (by omega : ¬ n = 0), h0, if_true] at he ⊢
        refine mhConnectAux_opened_left_open dialOk handshakeOk (n - 1) 1
          [{ connected := true, closeCalled := false }] ?_ rfl e he i0 hi0
        intro j hj
        simp only [List.length_singleton] at hj
        interval_cases j
        rfl
      · simp only [MultiHopConnect, if_neg (by omega : ¬ n = 0), h0, if_false] at he
        have : e = MHConnectError.hop0ConnectFailed := by
          simpa using he.symm
        subst this
        rcases hi0 with h | h <;> cases h
  · intro s hs
    simp only [MultiHopClose, List.mem_map] at hs
    obtain ⟨a, _, ha⟩ := hs
    rw [← ha]

/-- Closed-form witness for `C5_partial_connect_leaves_sessions_open`: a
three-hop chain whose dial to hop 1 fails. -/
theorem C5_partial_connect_leaves_sessions_open_witness :
    ((MultiHopConnect true (fun _ => false) (fun _ => true) 3).sessions.getD 0
        { connected := false, closeCalled := false }
      = { connected := true, closeCalled := false }) ∧
    ((MultiHopConnect true (fun _ => false) (fun _ => true) 3).dialedConnClosed = false) := by
  have h := (C5_partial_connect_leaves_sessions_open true (fun _ => false) (fun _ => true)
      3 1).1 (.dialHopFailed 1) (by decide) (Or.inl rfl)
  exact ⟨h.1 0 (by decide), h.2⟩

/-- Counterexample to C5 as stated: two hops, hop 0 connects, the dial to
hop 1 succeeds, hop 1's SSH handshake fails.  `Connect` returns the
handshake error while hop 0's session is still connected and was never
closed — contradicting the claim that every session already opened for
earlier hops is closed before `Connect` returns the error. -/
theorem C5_partial_connect_counterexample :
    ((MultiHopConnect true (fun _ => true) (fun _ => false) 2).error
        = some (.sshHandshakeFailed 1) ∧
      (MultiHopConnect true (fun _ => true) (fun _ => false) 2).sessions.getD 0
          { connected := false, closeCalled := false }
        = { connected := true, closeCalled := false } ∧
      ((MultiHopConnect true (fun _ => true) (fun _ => false) 2).sessions.getD 0
          { connected := false, closeCalled := false }).closeCalled = false) := by
  decide

/-! ## `Session` connection state and `Dial` (internal/tunnel/session.go)

`SessionState.Dial` reads the client handle under the read lock (`s.Client()`)
and refuses with a "session not connected" error exactly when that handle
is `nil`; otherwise it delegates to `client.Dial`, whose network outcome is
the oracle `wireOk`.  `Disconnect` returns early when the session is not
connected; otherwise it clears `connected`, `client` and `connectedAt`.
`sendKeepAlive` (the keep-alive loop body) refuses when the client handle
is nil; when the `keepalive@openssh.com` request errors (oracle
`requestOk = false`) it clears `connected` and records `lastError`, but
leaves the `client` handle in place. -/

structure SessionState where
  connected : Bool
  client : Option Nat
  lastError : Option String
  retryCount : Nat
  connectedAt : Option Nat
  deriving DecidableEq, Repr

inductive DialError
  | sessionNotConnected
  | wireDialFailed
  deriving DecidableEq, Repr

def SessionState.Dial (s : SessionState) (wireOk : Bool) : Except DialError Nat :=
  match s.client with
  | none => .error .sessionNotConnected
  | some h => if wireOk then .ok h else .error .wireDialFailed

def SessionState.Disconnect (s : SessionState) : SessionState :=
  if s.connected = false then s
  else { s with connected := false, client := none, connectedAt := none }

/-- `sendKeepAlive`; the returned `Bool` is `true` when the keep-alive
request succeeded. -/
def SessionState.sendKeepAlive (s : SessionState) (requestOk : Bool) : SessionState × Bool :=
  match s.client with
  | none => (s, false)
  | some _ =>
      if requestOk then (s, true)
      else ({ s with connected := false, lastError := some "keep-alive failed" }, false)

/-- C9 (amended): `SessionState.Dial` fails with the session-not-connected error
exactly when the client handle is nil.  `Dial` after `Disconnect` on a
connected session fails deterministically, because `Disconnect` clears the
handle.  After the keep-alive loop marks the session disconnected, however,
the client handle is *retained*: `Dial` is then delegated to the underlying
client rather than being refused by the session's own check. -/
theorem C9_dial_not_connected (s s2 s3 : SessionState) (wireOk : Bool) (h : Nat)
    (hnil : s.client = none) (hconn : s2.connected = true) (hcl : s3.client = some h) :
    (SessionState.Dial s wireOk = .error .sessionNotConnected) ∧
    (SessionState.Dial (SessionState.Disconnect s2) wireOk = .error .sessionNotConnected) ∧
    ((s3.sendKeepAlive false).1.connected = false ∧
     (s3.sendKeepAlive false).1.client = some h ∧
     SessionState.Dial (s3.sendKeepAlive false).1 wireOk
       = (if wireOk then .ok h else .error .wireDialFailed)) := by
  refine ⟨?_, ?_, ?_, ?_, ?_⟩
  · simp [SessionState.Dial, hnil]
  · simp [SessionState.Dial, SessionState.Disconnect, hconn]
  · simp [SessionState.sendKeepAlive, hcl]
  · simp [SessionState.sendKeepAlive, hcl]
  · simp [SessionState.sendKeepAlive, SessionState.Dial, hcl]

/-- Closed-form witness for `C9_dial_not_connected` on concrete session
states. -/
theorem C9_dial_not_connected_witness :
    (let s : SessionState :=
      { connected := false, client := none, lastError := none,
        retryCount := 0, connectedAt := none };
     let s2 : SessionState :=
      { connected := true, client := some 3, lastError := none,
        retryCount := 0, connectedAt := some 1 };
     let s3 : SessionState :=
      { connected := true, client := some 7, lastError := none,
        retryCount := 0, connectedAt := some 1 };
     (SessionState.Dial s true = .error .sessionNotConnected) ∧
     (SessionState.Dial (SessionState.Disconnect s2) true = .error .sessionNotConnected) ∧
     ((s3.sendKeepAlive false).1.connected = false ∧
      (s3.sendKeepAlive false).1.client = some 7 ∧
      SessionState.Dial (s3.sendKeepAlive false).1 true
        = (if true then .ok 7 else .error .wireDialFailed))) :=
  C9_dial_not_connected
    { connected := false, client := none, lastError := none,
      retryCount := 0, connectedAt := none }
    { connected := true, client := some 3, lastError := none,
      retryCount := 0, connectedAt := some 1 }
    { connected := true, client := some 7, lastError := none,
      retryCount := 0, connectedAt := some 1 }
    true 7 rfl rfl rfl

/-- Counterexample to C9 as stated: after a keep-alive failure the session
is marked not connected, yet `Dial` succeeds (the session-level guard only
checks the client handle, which the keep-alive path leaves in place) — so
it is not the case that every not-connected session's `Dial` fails. -/
theorem C9_dial_after_keepalive_counterexample :
    (let s0 : SessionState :=
      { connected := true, client := some 7, lastError := none,
        retryCount := 0, connectedAt := some 1 };
     let s1 := (s0.sendKeepAlive false).1;
     s1.connected = false ∧ SessionState.Dial s1 true = .ok 7) :=
  ⟨rfl, rfl⟩

/-! ## `SQLiteStore` (internal/storage/sqlite.go)

Rows of the `tunnels` table, keyed by the primary key `id` (the table also
has a unique `name` column; `INSERT OR REPLACE` conflicts on `name` are
outside the claims below and the store is modelled as keyed by `id`).
`Save` builds the row from the spec — hops serialized as one blob (kept
structurally here), keep-alive stored as whole seconds — and always writes
the literal status `"stopped"` (the source comment: "Initially saved as
stopped").  `UpdateStatus` updates `status` and `updated_at` of an existing
row and fails when no row matched. -/

structure Hop where
  host : String
  port : Nat
  user : String
  authMethod : String
  keyID : String
  deriving DecidableEq, Repr

structure TunnelSpec where
  id : String
  name : String
  owner : String
  tunnelType : String
  hops : List Hop
  localPort : Nat
  localBindAddress : String
  remoteHost : String
  remotePort : Nat
  autoReconnect : Bool
  keepAlive : Nat
  maxRetries : Nat
  createdAt : Nat
  updatedAt : Nat
  deriving DecidableEq, Repr

def alistLookup {α : Type} : List (String × α) → String → Option α
  | [], _ => none
  | (k, v) :: rest, key => if k = key then some v else alistLookup rest key

def alistInsert {α : Type} : List (String × α) → String → α → List (String × α)
  | [], key, v => [(key, v)]
  | (k, w) :: rest, key, v =>
      if k = key then (key, v) :: rest else (k, w) :: alistInsert rest key v

lemma alistLookup_insert {α : Type} (l : List (String × α)) (key : String) (v : α) :
    alistLookup (alistInsert l key v) key = some v := by
  induction l with
  | nil => simp [alistInsert, alistLookup]
  | cons kv rest ih =>
      obtain ⟨k, w⟩ := kv
      by_cases h : k = key
      · simp [alistInsert, alistLookup, h]
      · simp [alistInsert, alistLookup, h, ih]

lemma alistInsert_self {α : Type} (l : List (String × α)) (key : String) (v : α)
    (h : alistLookup l key = some v) : alistInsert l key v = l := by
  induction l with
  | nil => simp [alistLookup] at h
  | cons kv rest ih =>
      obtain ⟨k, w⟩ := kv
      by_cases hk : k = key
      · subst hk
        simp only [alistLookup, if_pos rfl] at h
        injection h with h1
        subst h1
        simp [alistInsert]
      · simp only [alistLookup, if_neg hk] at h
        simp only [alistInsert, if_neg hk]
        rw [ih h]

structure SqliteRow where
  id : String
  name : String
  owner : String
  tunnelType : String
  hopsBlob : List Hop
  localPort : Nat
  localBindAddress : String
  remoteHost : String
  remotePort : Nat
  autoReconnect : Bool
  keepAliveSeconds : Nat
  maxRetries : Nat
  status : String
  createdAt : Nat
  updatedAt : Nat
  deriving DecidableEq, Repr

abbrev SqliteDB := List (String × SqliteRow)

/-- The row written by `Save` for a given spec: every column comes from the
spec except `status`, which is always the literal `"stopped"`. -/
def rowOfSpec (spec : TunnelSpec) : SqliteRow :=
  { id := spec.id, name := spec.name, owner := spec.owner,
    tunnelType := spec.tunnelType, hopsBlob := spec.hops,
    localPort := spec.localPort, localBindAddress := spec.localBindAddress,
    remoteHost := spec.remoteHost, remotePort := spec.remotePort,
    autoReconnect := spec.autoReconnect,
    keepAliveSeconds := spec.keepAlive / 1000000000,
    maxRetries := spec.maxRetries,
    status := "stopped",
    createdAt := spec.createdAt, updatedAt := spec.updatedAt }

/-- `SQLiteStore.Save`: `INSERT OR REPLACE` keyed by `id`. -/
def SQLiteStore.Save (db : SqliteDB) (spec : TunnelSpec) : SqliteDB :=
  alistInsert db spec.id (rowOfSpec spec)

/-- `SQLiteStore.UpdateStatus`: set `status` and `updated_at` where
`id` matches; `none` when no row was affected. -/
def SQLiteStore.UpdateStatus (db : SqliteDB) (tunnelID status : String) (now : Nat) :
    Option SqliteDB :=
  match alistLookup db tunnelID with
  | none => none
  | some r => some (alistInsert db tunnelID { r with status := status, updatedAt := now })

/-- C10: every `Save` writes the status column as the literal `"stopped"`,
whatever the tunnel's runtime state — upserting over an existing row whose
status is `"active"` still records `"stopped"` — and only a subsequent
`UpdateStatus` makes the stored status reflect the live state. -/
theorem C10_save_writes_stopped (db : SqliteDB) (spec : TunnelSpec)
    (tunnelID status : String) (now : Nat) :
    (alistLookup (SQLiteStore.Save db spec) spec.id = some (rowOfSpec spec)) ∧
    ((rowOfSpec spec).status = "stopped") ∧
    (∀ r0, alistLookup db spec.id = some r0 → r0.status = "active" →
      (alistLookup (SQLiteStore.Save db spec) spec.id).map SqliteRow.status
        = some "stopped") ∧
    (alistLookup db tunnelID = none →
      SQLiteStore.UpdateStatus db tunnelID status now = none) ∧
    (∀ r0, alistLookup db tunnelID = some r0 →
      SQLiteStore.UpdateStatus db tunnelID status now
        = some (alistInsert db tunnelID { r0 with status := status, updatedAt := now }) ∧
      (alistLookup (alistInsert db tunnelID { r0 with status := status, updatedAt := now })
          tunnelID).map SqliteRow.status = some status) := by
  refine ⟨?_, rfl, ?_, ?_, ?_⟩
  · exact alistLookup_insert db spec.id (rowOfSpec spec)
  · intro r0 _ _
    rw [SQLiteStore.Save, alistLookup_insert]
    rfl
  · intro h
    simp [SQLiteStore.UpdateStatus, h]
  · intro r0 h
    refine ⟨by simp [SQLiteStore.UpdateStatus, h], ?_⟩
    rw [alistLookup_insert]
    rfl

/-- A concrete spec and a database holding its row with status `"active"`,
used by the witness below. -/
def specW : TunnelSpec :=
  { id := "t1", name := "n1", owner := "o", tunnelType := "local",
    hops := [], localPort := 8080, localBindAddress := "127.0.0.1",
    remoteHost := "db", remotePort := 5432, autoReconnect := true,
    keepAlive := 30000000000, maxRetries := 3, createdAt := 1, updatedAt := 1 }

def dbW : SqliteDB := [("t1", { rowOfSpec specW with status := "active" })]

/-- Closed-form witness for `C10_save_writes_stopped`: saving the spec of an
active tunnel over its row records `"stopped"`; `UpdateStatus` then sets the
status. -/
theorem C10_save_writes_stopped_witness :
    ((alistLookup (SQLiteStore.Save dbW specW) specW.id).map SqliteRow.status
        = some "stopped" ∧
     (SQLiteStore.UpdateStatus dbW "t1" "active" 9).isSome = true) := by
  have h := C10_save_writes_stopped dbW specW "t1" "active" 9
  refine ⟨h.2.2.1 { rowOfSpec specW with status := "active" } (by decide) (by decide), ?_⟩
  rw [(h.2.2.2.2 { rowOfSpec specW with status := "active" } (by decide)).1]
  rfl

/-! ## Manager and Tunnel (the storage-aware manager in the tunnel package)

The `Manager` holds `tunnels : map[id]*Tunnel` and an optional `Storage`
(instantiated in production by `SQLiteStore`, whose model above is reused
here).  Locks are dropped: each method is one whole-critical-section state
transformer.  Session, multi-hop-session and forwarder references are
opaque handles; `Close`/`Stop` calls on them are recorded as events (their
error returns are I/O conditions outside this model and are treated as
successful).  Wall-clock time is an explicit `now`. -/

inductive TunnelState
  | pending
  | active
  | failed
  | stopped
  deriving DecidableEq, Repr

structure TunnelStatus where
  tunnelID : String
  state : TunnelState
  connectedAt : Option Nat
  lastError : String
  bytesSent : Nat
  bytesReceived : Nat
  retryCount : Nat
  deriving DecidableEq, Repr

structure ForwarderRef where
  fid : Nat
  bytesSent : Nat
  bytesReceived : Nat
  deriving DecidableEq, Repr

structure Tunnel where
  spec : TunnelSpec
  status : Option TunnelStatus
  createdAt : Nat
  session : Option Nat
  multiSession : Option Nat
  forwarder : Option ForwarderRef
  deriving DecidableEq, Repr

/-- The `&TunnelStatus{TunnelID: ...}` literal used when `t.Status` is nil;
every field except the id is the zero value, and both call sites overwrite
`state` and `lastError` immediately afterwards. -/
def zeroStatus (id : String) : TunnelStatus :=
  { tunnelID := id, state := .pending, connectedAt := none, lastError := "",
    bytesSent := 0, bytesReceived := 0, retryCount := 0 }

/-- `Tunnel.updateStatus`: set state and last-error; stamp `connectedAt`
only when entering `Active` with `connectedAt` still nil; copy forwarder
byte counters when a forwarder is present. -/
def Tunnel.updateStatus (t : Tunnel) (state : TunnelState) (errorMsg : String)
    (now : Nat) : Tunnel :=
  let base := match t.status with
    | some st => st
    | none => zeroStatus t.spec.id
  let st1 := { base with state := state, lastError := errorMsg }
  let st2 := if state = .active ∧ st1.connectedAt = none then
               { st1 with connectedAt := some now }
             else st1
  let st3 := match t.forwarder with
    | some f => { st2 with bytesSent := f.bytesSent, bytesReceived := f.bytesReceived }
    | none => st2
  { t with status := some st3 }

def Tunnel.isStopped (t : Tunnel) : Bool :=
  match t.status with
  | some st => st.state = .stopped
  | none => false

inductive CloseEvent
  | closedForwarder (fid : Nat)
  | closedSession (h : Nat)
  | closedMultiSession (h : Nat)
  deriving DecidableEq, Repr

/-- `Tunnel.Stop` (the lock-guarded variant): no-op when already `Stopped`;
otherwise stop the forwarder and clear its reference, close the session (or
else the multi-hop session, as in `cleanup`) and clear both references, and
set the status to `Stopped` with an empty last-error.  `connectedAt` is not
touched. -/
def Tunnel.Stop (t : Tunnel) : Tunnel × List CloseEvent :=
  if t.isStopped then (t, [])
  else
    let evFw : List CloseEvent :=
      match t.forwarder with
      | some f => [.closedForwarder f.fid]
      | none => []
    let evSess : List CloseEvent :=
      match t.session with
      | some h => [.closedSession h]
      | none =>
          match t.multiSession with
          | some h => [.closedMultiSession h]
          | none => []
    let base := match t.status with
      | some st => st
      | none => zeroStatus t.spec.id
    let t1 : Tunnel :=
      { t with
          forwarder := none, session := none, multiSession := none,
          status := some { base with state := .stopped, lastError := "" } }
    (t1, evFw ++ evSess)

structure Manager where
  tunnels : List (String × Tunnel)
  storage : Option SqliteDB
  deriving DecidableEq, Repr

/-- Events emitted by `Manager.Create`, in program order.  `networkIO`
marks where a network operation would occur; the body of `Create` performs
none (connection work happens in the spawned `connectTunnel` task, behind
`spawnedConnectTunnel`). -/
inductive CreateEvent
  | savedSpecToStorage
  | insertedTunnelIntoMap
  | spawnedConnectTunnel
  | networkIO
  deriving DecidableEq, Repr

inductive CreateError
  | tunnelAlreadyExists
  | storageSaveFailed
  deriving DecidableEq, Repr

/-- The `&Tunnel{Spec: spec, CreatedAt: time.Now(), Status: &TunnelStatus{
TunnelID: spec.ID, State: Pending, LastError: ""}}` literal of `Create`. -/
def newPendingTunnel (spec : TunnelSpec) (now : Nat) : Tunnel :=
  { spec := spec, createdAt := now,
    status := some { tunnelID := spec.id, state := .pending, connectedAt := none,
                     lastError := "", bytesSent := 0, bytesReceived := 0, retryCount := 0 },
    session := none, multiSession := none, forwarder := none }

/-- `Manager.Create`: fail on duplicate id; otherwise save to storage first
(when configured; `saveOk` is the I/O outcome of `Storage.Save`), then
insert the pending tunnel into the map, then spawn `connectTunnel`. -/
def Manager.Create (m : Manager) (spec : TunnelSpec) (now : Nat) (saveOk : Bool) :
    Manager × Option CreateError × List CreateEvent :=
  match alistLookup m.tunnels spec.id with
  | some _ => (m, some .tunnelAlreadyExists, [])
  | none =>
      match m.storage with
      | some db =>
          if saveOk then
            let m1 : Manager :=
              { m with
                  storage := some (SQLiteStore.Save db spec),
                  tunnels := alistInsert m.tunnels spec.id (newPendingTunnel spec now) }
            (m1, none,
             [.savedSpecToStorage, .insertedTunnelIntoMap, .spawnedConnectTunnel])
          else (m, some .storageSaveFailed, [])
      | none =>
          ({ m with tunnels := alistInsert m.tunnels spec.id (newPendingTunnel spec now) },
           none, [.insertedTunnelIntoMap, .spawnedConnectTunnel])

inductive StopError
  | tunnelNotFound
  | storageUpdateFailed
  deriving DecidableEq, Repr

/-- `Manager.Stop` (storage-aware variant): look the tunnel up, stop it,
update the storage status to `"stopped"` when a storage is configured, and
leave the map entry in place. -/
def Manager.Stop (m : Manager) (id : String) (now : Nat) :
    Manager × Option StopError × List CloseEvent :=
  match alistLookup m.tunnels id with
  | none => (m, some .tunnelNotFound, [])
  | some t =>
      let r := t.Stop
      let m1 : Manager := { m with tunnels := alistInsert m.tunnels id r.1 }
      match m1.storage with
      | some db =>
          match SQLiteStore.UpdateStatus db id "stopped" now with
          | some db1 => ({ m1 with storage := some db1 }, none, r.2)
          | none => (m1, some .storageUpdateFailed, r.2)
      | none => (m1, none, r.2)

/-- The `connectedAt` field of the tunnel status (`none` when the status is
nil). -/
def Tunnel.connAt (t : Tunnel) : Option Nat :=
  match t.status with
  | some st => st.connectedAt
  | none => none

lemma Tunnel.updateStatus_connAt (t : Tunnel) (s : TunnelState) (msg : String) (now : Nat) :
    (t.updateStatus s msg now).connAt =
      if s = .active ∧ t.connAt = none then some now else t.connAt := by
  cases ht : t.status with
  | none =>
      cases hf : t.forwarder with
      | none =>
          by_cases hs : s = TunnelState.active <;>
            simp [Tunnel.updateStatus, Tunnel.connAt, ht, hf, zeroStatus, hs]
      | some f =>
          by_cases hs : s = TunnelState.active <;>
            simp [Tunnel.updateStatus, Tunnel.connAt, ht, hf, zeroStatus, hs]
  | some st =>
      cases hf : t.forwarder with
      | none =>
          by_cases hs : s = TunnelState.active <;>
            by_cases hca : st.connectedAt = none <;>
              simp [Tunnel.updateStatus, Tunnel.connAt, ht, hf, hs, hca]
      | some f =>
          by_cases hs : s = TunnelState.active <;>
            by_cases hca : st.connectedAt = none <;>
              simp [Tunnel.updateStatus, Tunnel.connAt, ht, hf, hs, hca]

lemma Tunnel.stop_connAt (t : Tunnel) (x : Nat) (h : t.connAt = some x) :
    ((t.Stop).1).connAt = some x := by
  by_cases hstop : t.isStopped
  · simp [Tunnel.Stop, hstop, h]
  · cases ht : t.status with
    | none => simp only [Tunnel.connAt, ht] at h; cases h
    | some st =>
        simp only [Tunnel.connAt, ht] at h
        simp [Tunnel.Stop, hstop, Tunnel.connAt, ht, h]

/-- C7 (amended): the connected-at timestamp is set exactly once, on the
first transition into `Active` while it is still unset, and it is preserved
by every subsequent status update *and* by `Stop` — `Tunnel.Stop` clears
the session and forwarder references but does not clear `connectedAt`, and
`updateStatus` never overwrites an already-set `connectedAt`, so the
timestamp is never reset, not even by the transition into `Active` that
follows a `Stop`/`Start` cycle. -/
theorem C7_connectedAt_set_once_never_reset (t : Tunnel) (s : TunnelState)
    (msg : String) (now : Nat) :
    (t.connAt = none → s = .active → (t.updateStatus s msg now).connAt = some now) ∧
    (t.connAt = none → s ≠ .active → (t.updateStatus s msg now).connAt = none) ∧
    (∀ x, t.connAt = some x → (t.updateStatus s msg now).connAt = some x) ∧
    (∀ x, t.connAt = some x → ((t.Stop).1).connAt = some x) := by
  refine ⟨?_, ?_, ?_, ?_⟩
  · intro hn hs
    rw [Tunnel.updateStatus_connAt, if_pos ⟨hs, hn⟩]
  · intro hn hs
    rw [Tunnel.updateStatus_connAt, if_neg (by tauto), hn]
  · intro x hx
    rw [Tunnel.updateStatus_connAt, if_neg (by simp [hx]), hx]
  · intro x hx
    exact Tunnel.stop_connAt t x hx

/-- Closed-form witness for `C7_connectedAt_set_once_never_reset`: a fresh
pending tunnel gets `connectedAt = 5` on its first `Active`, and both a
further update and a `Stop` preserve it. -/
theorem C7_connectedAt_set_once_never_reset_witness :
    (((newPendingTunnel specW 0).updateStatus .active "" 5).connAt = some 5 ∧
     ((((newPendingTunnel specW 0).updateStatus .active "" 5).updateStatus
         .failed "boom" 8).connAt = some 5) ∧
     (((((newPendingTunnel specW 0).updateStatus .active "" 5).Stop).1).connAt = some 5)) := by
  have h1 := (C7_connectedAt_set_once_never_reset (newPendingTunnel specW 0)
    .active "" 5).1 rfl rfl
  have h2 := (C7_connectedAt_set_once_never_reset
    ((newPendingTunnel specW 0).updateStatus .active "" 5) .failed "boom" 8).2.2.1 5 h1
  have h3 := (C7_connectedAt_set_once_never_reset
    ((newPendingTunnel specW 0).updateStatus .active "" 5) .failed "boom" 8).2.2.2 5 h1
  exact ⟨h1, h2, h3⟩

/-- Counterexample to C7 as stated: stop an active tunnel, then transition
back into `Active` at time 9.  The claim says the timestamp is reset on
this next transition into `Active`; the code keeps the original value 5. -/
theorem C7_connectedAt_not_reset_counterexample :
    (let u1 := (newPendingTunnel specW 0).updateStatus .active "" 5;
     let t2 := (u1.Stop).1;
     let u3 := t2.updateStatus .active "" 9;
     u1.connAt = some 5 ∧ t2.connAt = some 5 ∧ u3.connAt = some 5 ∧
       ¬ u3.connAt = some 9) :=
  ⟨rfl, rfl, rfl, by decide⟩

/-- C1: for a spec whose id is not yet registered, `Create` (a) when a
storage is configured and the save succeeds, emits exactly the event trace
save-to-storage, then insert-into-map, then spawn-background-task — the
write to Storage strictly precedes the map insertion — returns no error,
registers the tunnel with state `Pending`, and stores the spec's row;
(b) without storage it inserts and spawns; and in every case the body of
`Create` performs no network I/O (`networkIO` never appears in its trace).
For an id already present, `Create` fails and leaves the manager — registry
and storage — unchanged. -/
theorem C1_create_saves_before_insert (m : Manager) (spec : TunnelSpec)
    (now : Nat) (saveOk : Bool) :
    ((alistLookup m.tunnels spec.id).isSome = true →
      Manager.Create m spec now saveOk = (m, some .tunnelAlreadyExists, [])) ∧
    (∀ db, alistLookup m.tunnels spec.id = none → m.storage = some db → saveOk = true →
      (Manager.Create m spec now saveOk).2.1 = none ∧
      (Manager.Create m spec now saveOk).2.2 =
        [.savedSpecToStorage, .insertedTunnelIntoMap, .spawnedConnectTunnel] ∧
      alistLookup (Manager.Create m spec now saveOk).1.tunnels spec.id
        = some (newPendingTunnel spec now) ∧
      (Manager.Create m spec now saveOk).1.storage = some (SQLiteStore.Save db spec) ∧
      alistLookup (SQLiteStore.Save db spec) spec.id = some (rowOfSpec spec)) ∧
    (alistLookup m.tunnels spec.id = none → m.storage = none →
      (Manager.Create m spec now saveOk).2.1 = none ∧
      (Manager.Create m spec now saveOk).2.2 =
        [.insertedTunnelIntoMap, .spawnedConnectTunnel] ∧
      alistLookup (Manager.Create m spec now saveOk).1.tunnels spec.id
        = some (newPendingTunnel spec now)) ∧
    ((newPendingTunnel spec now).status.map TunnelStatus.state = some .pending) ∧
    (CreateEvent.networkIO ∉ (Manager.Create m spec now saveOk).2.2) := by
  refine ⟨?_, ?_, ?_, rfl, ?_⟩
  · intro hsome
    obtain ⟨t0, ht0⟩ := Option.isSome_iff_exists.mp hsome
    simp [Manager.Create, ht0]
  · intro db hl hst hsv
    subst hsv
    simp only [Manager.Create, hl, hst, if_true]
    refine ⟨trivial, trivial, ?_, trivial, ?_⟩
    · exact alistLookup_insert m.tunnels spec.id (newPendingTunnel spec now)
    · exact alistLookup_insert db spec.id (rowOfSpec spec)
  · intro hl hst
    simp only [Manager.Create, hl, hst]
    exact ⟨trivial, trivial, alistLookup_insert m.tunnels spec.id (newPendingTunnel spec now)⟩
  · cases hl : alistLookup m.tunnels spec.id with
    | some t0 => simp [Manager.Create, hl]
    | none =>
        cases hst : m.storage with
        | none => simp [Manager.Create, hl, hst]
        | some db =>
            cases hsv : saveOk <;> simp [Manager.Create, hl, hst, hsv]

/-- Closed-form witness for `C1_create_saves_before_insert`: creating
`specW` in an empty manager with an empty storage. -/
theorem C1_create_saves_before_insert_witness :
    (let m0 : Manager := { tunnels := [], storage := some [] };
     (Manager.Create m0 specW 3 true).2.1 = none ∧
     (Manager.Create m0 specW 3 true).2.2 =
        [.savedSpecToStorage, .insertedTunnelIntoMap, .spawnedConnectTunnel] ∧
     alistLookup (Manager.Create m0 specW 3 true).1.tunnels specW.id
        = some (newPendingTunnel specW 3) ∧
     (Manager.Create m0 specW 3 true).1.storage = some (SQLiteStore.Save [] specW) ∧
     alistLookup (SQLiteStore.Save [] specW) specW.id = some (rowOfSpec specW)) :=
  (C1_create_saves_before_insert { tunnels := [], storage := some [] }
      specW 3 true).2.1 [] rfl rfl rfl

lemma Tunnel.stop_of_stopped (t : Tunnel) (h : t.isStopped = true) : t.Stop = (t, []) := by
  simp [Tunnel.Stop, h]

lemma Tunnel.stop_fields (t : Tunnel) (hns : t.isStopped = false) :
    (t.Stop).1.session = none ∧ (t.Stop).1.multiSession = none ∧
    (t.Stop).1.forwarder = none ∧
    ((t.Stop).1.status).map TunnelStatus.state = some TunnelState.stopped ∧
    (t.Stop).1.spec = t.spec := by
  simp [Tunnel.Stop, hns]

lemma Tunnel.stop_isStopped (t : Tunnel) (hns : t.isStopped = false) :
    ((t.Stop).1).isStopped = true := by
  unfold Tunnel.Stop
  rw [if_neg (by simp [hns])]
  simp [Tunnel.isStopped]

lemma Tunnel.stop_events (t : Tunnel) (hns : t.isStopped = false) :
    (∀ f, t.forwarder = some f → CloseEvent.closedForwarder f.fid ∈ (t.Stop).2) ∧
    (∀ h, t.session = some h → CloseEvent.closedSession h ∈ (t.Stop).2) ∧
    (∀ h, t.session = none → t.multiSession = some h →
       CloseEvent.closedMultiSession h ∈ (t.Stop).2) := by
  refine ⟨?_, ?_, ?_⟩
  · intro f hf
    simp [Tunnel.Stop, hns, hf]
  · intro h hsess
    cases hf : t.forwarder <;> simp [Tunnel.Stop, hns, hsess, hf]
  · intro h hsess hms
    cases hf : t.forwarder <;> simp [Tunnel.Stop, hns, hsess, hms, hf]

lemma managerStop_storage_none (m : Manager) (id : String) (t : Tunnel) (now : Nat)
    (hl : alistLookup m.tunnels id = some t) (hst : m.storage = none) :
    Manager.Stop m id now =
      ({ m with tunnels := alistInsert m.tunnels id (t.Stop).1 }, none, (t.Stop).2) := by
  simp [Manager.Stop, hl, hst]

lemma managerStop_storage_some (m : Manager) (id : String) (t : Tunnel) (db : SqliteDB)
    (r0 : SqliteRow) (now : Nat)
    (hl : alistLookup m.tunnels id = some t) (hst : m.storage = some db)
    (hr0 : alistLookup db id = some r0) :
    Manager.Stop m id now =
      ({ m with
          tunnels := alistInsert m.tunnels id (t.Stop).1,
          storage := some (alistInsert db id
            { r0 with status := "stopped", updatedAt := now }) },
       none, (t.Stop).2) := by
  simp [Manager.Stop, hl, hst, SQLiteStore.UpdateStatus, hr0]

/-- C6: for a registered and not-yet-stopped tunnel, `Manager.Stop`
(a) returns no error, (b) leaves the map entry in place, now holding the
stopped tunnel, (c) clears the forwarder, session and multi-hop-session
references and sets the state to `Stopped` while keeping the spec,
(d) emits close events for the forwarder and the session (or multi-hop
session) that were present, (e) when a storage is configured, rewrites the
stored row to status `"stopped"` keeping every spec column, and (f) is
idempotent: a second `Stop` returns no error, emits no close events, and
leaves the registry exactly unchanged (in storage it merely re-writes the
already-`"stopped"` status, refreshing `updated_at`). -/
theorem C6_manager_stop_idempotent (m : Manager) (id : String) (t : Tunnel)
    (now now2 : Nat)
    (hl : alistLookup m.tunnels id = some t) (hns : t.isStopped = false)
    (hrow : ∀ db, m.storage = some db → (alistLookup db id).isSome = true) :
    ((Manager.Stop m id now).2.1 = none) ∧
    (alistLookup (Manager.Stop m id now).1.tunnels id = some (t.Stop).1) ∧
    ((t.Stop).1.session = none ∧ (t.Stop).1.multiSession = none ∧
      (t.Stop).1.forwarder = none ∧
      ((t.Stop).1.status).map TunnelStatus.state = some TunnelState.stopped ∧
      (t.Stop).1.spec = t.spec) ∧
    (∀ f, t.forwarder = some f →
       CloseEvent.closedForwarder f.fid ∈ (Manager.Stop m id now).2.2) ∧
    (∀ h, t.session = some h →
       CloseEvent.closedSession h ∈ (Manager.Stop m id now).2.2) ∧
    (∀ h, t.session = none → t.multiSession = some h →
       CloseEvent.closedMultiSession h ∈ (Manager.Stop m id now).2.2) ∧
    (∀ db r0, m.storage = some db → alistLookup db id = some r0 →
       (Manager.Stop m id now).1.storage
         = some (alistInsert db id { r0 with status := "stopped", updatedAt := now }) ∧
       (alistLookup (alistInsert db id
           { r0 with status := "stopped", updatedAt := now }) id).map SqliteRow.status
         = some "stopped") ∧
    ((Manager.Stop (Manager.Stop m id now).1 id now2).2.1 = none ∧
     (Manager.Stop (Manager.Stop m id now).1 id now2).2.2 = [] ∧
     (Manager.Stop (Manager.Stop m id now).1 id now2).1.tunnels
       = (Manager.Stop m id now).1.tunnels) := by
  have hstopfields := Tunnel.stop_fields t hns
  have hstopev := Tunnel.stop_events t hns
  have ht1stopped := Tunnel.stop_isStopped t hns
  have ht1fix := Tunnel.stop_of_stopped (t.Stop).1 ht1stopped
  have hl2 : alistLookup (alistInsert m.tunnels id (t.Stop).1) id = some (t.Stop).1 :=
    alistLookup_insert _ _ _
  cases hst : m.storage with
  | none =>
      rw [managerStop_storage_none m id t now hl hst]
      dsimp only
      rw [managerStop_storage_none
        { m with tunnels := alistInsert m.tunnels id (t.Stop).1 } id (t.Stop).1 now2 hl2 hst]
      dsimp only
      rw [ht1fix]
      dsimp only
      refine ⟨rfl, hl2, hstopfields, hstopev.1, hstopev.2.1, hstopev.2.2, ?_, rfl, rfl, ?_⟩
      · intro db2 r2 hdb2 hr2
        simp [hst] at hdb2
      · exact alistInsert_self _ _ _ hl2
  | some db =>
      obtain ⟨r0, hr0⟩ := Option.isSome_iff_exists.mp (hrow db hst)
      have hr1 : alistLookup (alistInsert db id
          { r0 with status := "stopped", updatedAt := now }) id
          = some { r0 with status := "stopped", updatedAt := now } :=
        alistLookup_insert _ _ _
      rw [managerStop_storage_some m id t db r0 now hl hst hr0]
      dsimp only
      rw [managerStop_storage_some
        { m with
            tunnels := alistInsert m.tunnels id (t.Stop).1,
            storage := some (alistInsert db id
              { r0 with status := "stopped", updatedAt := now }) }
        id (t.Stop).1
        (alistInsert db id { r0 with status := "stopped", updatedAt := now })
        { r0 with status := "stopped", updatedAt := now } now2 hl2 rfl hr1]
      dsimp only
      rw [ht1fix]
      dsimp only
      refine ⟨rfl, hl2, hstopfields, hstopev.1, hstopev.2.1, hstopev.2.2, ?_, rfl, rfl, ?_⟩
      · intro db2 r2 hdb2 hr2
        injection hdb2 with h1
        subst h1
        rw [hr0] at hr2
        injection hr2 with h2
        subst h2
        exact ⟨rfl, by simp [hr1]⟩
      · exact alistInsert_self _ _ _ hl2

/-- Closed-form witness for `C6_manager_stop_idempotent`: stopping an
active tunnel registered in a one-entry manager whose storage holds its
row. -/
theorem C6_manager_stop_idempotent_witness :
    (let tA : Tunnel :=
      { spec := specW,
        status := some { tunnelID := "t1", state := .active, connectedAt := some 5,
                         lastError := "", bytesSent := 0, bytesReceived := 0,
                         retryCount := 0 },
        createdAt := 0, session := some 4, multiSession := none,
        forwarder := some { fid := 9, bytesSent := 0, bytesReceived := 0 } };
     let m0 : Manager := { tunnels := [("t1", tA)], storage := some [("t1", rowOfSpec specW)] };
     ((Manager.Stop m0 "t1" 7).2.1 = none) ∧
     (alistLookup (Manager.Stop m0 "t1" 7).1.tunnels "t1" = some (tA.Stop).1) ∧
     (CloseEvent.closedForwarder 9 ∈ (Manager.Stop m0 "t1" 7).2.2) ∧
     (CloseEvent.closedSession 4 ∈ (Manager.Stop m0 "t1" 7).2.2) ∧
     ((Manager.Stop (Manager.Stop m0 "t1" 7).1 "t1" 8).2.2 = [])) := by
  have h := C6_manager_stop_idempotent
    { tunnels := [("t1",
        { spec := specW,
          status := some { tunnelID := "t1", state := .active, connectedAt := some 5,
                           lastError := "", bytesSent := 0, bytesReceived := 0,
                           retryCount := 0 },
          createdAt := 0, session := some 4, multiSession := none,
          forwarder := some { fid := 9, bytesSent := 0, bytesReceived := 0 } })],
      storage := some [("t1", rowOfSpec specW)] }
    "t1"
    { spec := specW,
      status := some { tunnelID := "t1", state := .active, connectedAt := some 5,
                       lastError := "", bytesSent := 0, bytesReceived := 0,
                       retryCount := 0 },
      createdAt := 0, session := some 4, multiSession := none,
      forwarder := some { fid := 9, bytesSent := 0, bytesReceived := 0 } }
    7 8 (by decide) (by decide) (by intro db hdb; cases hdb; decide)
  exact ⟨h.1, h.2.1, h.2.2.2.1 _ rfl, h.2.2.2.2.1 _ rfl, h.2.2.2.2.2.2.2.2.1⟩

/-! ## `DynamicForwarder` SOCKS5 handshake (internal/tunnel/forward.go)

Bytes are naturals below 256.  A connection carries the bytes the client
will send (`input`) and the replies written so far (`writes`); writes are
modelled as infallible (a failing write would abort the handshake with no
further reply, like a failing read).  Each `io.ReadAtLeast(conn, buf[off:],
min)` reads into the 257-byte buffer at offset `off`: it fails when the
buffer slice is shorter than `min` (`ErrShortBuffer`) or the input ends
before `min` bytes arrived; otherwise it returns between `min` and
`min(len(input), 257-off)` bytes — the exact count is the adversarial
`chunk` entry of the read schedule.  The Go code discards the byte count of
the follow-up reads (`_, err = io.ReadAtLeast(...)`), which the embedding
mirrors by keeping the old offset `n`.  `fmt.Sprintf` address formatting is
kept structural (`SocksDest`). -/

structure Conn where
  input : List Nat
  writes : List (List Nat)
  deriving DecidableEq, Repr

def connWrite (c : Conn) (data : List Nat) : Conn :=
  { c with writes := c.writes ++ [data] }

/-- Overwrite `buf` at `off` with `data` (the buffer keeps its length when
`off + data.length` fits). -/
def bufWrite (buf : List Nat) (off : Nat) (data : List Nat) : List Nat :=
  buf.take off ++ data ++ buf.drop (off + data.length)

/-- `io.ReadAtLeast(conn, buf[off:], minB)` with adversarial chunk size. -/
def readAtLeastInto (c : Conn) (buf : List Nat) (off minB chunk : Nat) :
    Option (Conn × List Nat × Nat) :=
  if buf.length - off < minB then none
  else if c.input.length < minB then none
  else
    let n := min (max minB chunk) (min c.input.length (buf.length - off))
    some ({ c with input := c.input.drop n }, bufWrite buf off (c.input.take n), n)

def byteAt (buf : List Nat) (i : Nat) : Nat := buf.getD i 0

inductive SocksDest
  | ipv4 (addr : List Nat) (port : Nat)
  | domainName (name : List Nat) (port : Nat)
  | ipv6 (addr : List Nat) (port : Nat)
  deriving DecidableEq, Repr

inductive HandshakeOutcome
  | ioError
  | badGreetingVersion (v : Nat)
  | badRequestVersion (v : Nat)
  | unsupportedCommand (c : Nat)
  | unsupportedAtyp (a : Nat)
  | parsedDest (d : SocksDest)
  deriving DecidableEq, Repr

/-- The reply buffer of `socks5Error`: VER 5, the error code, RSV 0, ATYP
IPv4, bind address 0.0.0.0, bind port 0. -/
def socks5ErrorReply (rep : Nat) : List Nat := [5, rep, 0, 1, 0, 0, 0, 0, 0, 0]

/-- The reply buffer of `socks5Success`. -/
def socks5SuccessReply : List Nat := [5, 0, 0, 1, 0, 0, 0, 0, 0, 0]

/-- `socks5Handshake`: greeting, method selection `05 00`, request, address
parse; returns the connection with all bytes written so far and the
outcome. -/
def socks5Handshake (c0 : Conn) (chunks : List Nat) : Conn × HandshakeOutcome :=
  let buf0 : List Nat := List.replicate 257 0
  match readAtLeastInto c0 buf0 0 2 (chunks.getD 0 0) with
  | none => (c0, .ioError)
  | some (c1, buf1, n1) =>
    let version := byteAt buf1 0
    if version ≠ 5 then (c1, .badGreetingVersion version)
    else
      let nmethods := byteAt buf1 1
      match (if n1 < 2 + nmethods then
               readAtLeastInto c1 buf1 n1 (2 + nmethods - n1) (chunks.getD 1 0)
             else some (c1, buf1, n1)) with
      | none => (c1, .ioError)
      | some (c2, buf2, _) =>
        let c3 := connWrite c2 [5, 0]
        match readAtLeastInto c3 buf2 0 4 (chunks.getD 2 0) with
        | none => (c3, .ioError)
        | some (c4, buf4, n4) =>
          if byteAt buf4 0 ≠ 5 then (c4, .badRequestVersion (byteAt buf4 0))
          else
            let cmd := byteAt buf4 1
            if cmd ≠ 1 then (connWrite c4 (socks5ErrorReply 7), .unsupportedCommand cmd)
            else
              let atyp := byteAt buf4 3
              if atyp = 1 then
                match (if n4 < 10 then
                         readAtLeastInto c4 buf4 n4 (10 - n4) (chunks.getD 3 0)
                       else some (c4, buf4, n4)) with
                | none => (c4, .ioError)
                | some (c5, buf5, _) =>
                  let port := byteAt buf5 8 * 256 + byteAt buf5 9
                  (c5, .parsedDest (.ipv4 ((buf5.drop 4).take 4) port))
              else if atyp = 3 then
                match (if n4 < 5 then
                         readAtLeastInto c4 buf4 n4 (5 - n4) (chunks.getD 3 0)
                       else some (c4, buf4, n4)) with
                | none => (c4, .ioError)
                | some (c5, buf5, _) =>
                  let domainLen := byteAt buf5 4
                  match (if n4 < 5 + domainLen + 2 then
                           readAtLeastInto c5 buf5 n4 (5 + domainLen + 2 - n4) (chunks.getD 4 0)
                         else some (c5, buf5, n4)) with
                  | none => (c5, .ioError)
                  | some (c6, buf6, _) =>
                    let port := byteAt buf6 (5 + domainLen) * 256
                      + byteAt buf6 (5 + domainLen + 1)
                    (c6, .parsedDest (.domainName ((buf6.drop 5).take domainLen) port))
              else if atyp = 4 then
                match (if n4 < 22 then
                         readAtLeastInto c4 buf4 n4 (22 - n4) (chunks.getD 3 0)
                       else some (c4, buf4, n4)) with
                | none => (c4, .ioError)
                | some (c5, buf5, _) =>
                  let port := byteAt buf5 20 * 256 + byteAt buf5 21
                  (c5, .parsedDest (.ipv6 ((buf5.drop 4).take 16) port))
              else (connWrite c4 (socks5ErrorReply 8), .unsupportedAtyp atyp)

inductive SocksOutcome
  | sessionNotConnectedDrop
  | handshakeFailed (h : HandshakeOutcome)
  | dialFailed (d : SocksDest)
  | proxied (d : SocksDest)
  deriving DecidableEq, Repr

/-- `handleSOCKS5`: drop when the session is not connected; run the
handshake; dial the parsed destination through the session (outcome
`dialOk`); reply `04` on dial failure, the success reply then bidirectional
copy on success.  The payload bytes shuttled by `proxy` are outside the
handshake and not modelled. -/
def handleSOCKS5 (c0 : Conn) (chunks : List Nat) (sessionConnected : Bool)
    (dialOk : SocksDest → Bool) : Conn × SocksOutcome :=
  if sessionConnected = false then (c0, .sessionNotConnectedDrop)
  else
    match socks5Handshake c0 chunks with
    | (c1, .parsedDest d) =>
        if dialOk d then (connWrite c1 socks5SuccessReply, .proxied d)
        else (connWrite c1 (socks5ErrorReply 4), .dialFailed d)
    | (c1, h) => (c1, .handshakeFailed h)

lemma readAtLeastInto_writes {c c' : Conn} {buf buf' : List Nat} {off minB chunk n : Nat}
    (h : readAtLeastInto c buf off minB chunk = some (c', buf', n)) :
    c'.writes = c.writes := by
  unfold readAtLeastInto at h
  split at h
  · cases h
  · split at h
    · cases h
    · simp only [Option.some.injEq, Prod.mk.injEq] at h
      obtain ⟨h1, _, _⟩ := h
      rw [← h1]

lemma condRead_writes {c c' : Conn} {buf bufd buf' : List Nat} {cond : Prop}
    [Decidable cond] {off minB chunk nd n' : Nat}
    (h : (if cond then readAtLeastInto c buf off minB chunk else some (c, bufd, nd))
        = some (c', buf', n')) :
    c'.writes = c.writes := by
  split at h
  · exact readAtLeastInto_writes h
  · simp only [Option.some.injEq, Prod.mk.injEq] at h
    obtain ⟨h1, _, _⟩ := h
    rw [← h1]

/-- The reply bytes the handshake leaves on the wire, by outcome: version
errors get no reply (only the greeting, when the failure is past it); an
I/O error gets no further reply; a non-CONNECT command gets the `07` reply;
an unsupported ATYP the `08` reply; a parsed destination has exactly the
`05 00` method selection on the wire. -/
def handshakeWrites (c0 : Conn) : Conn × HandshakeOutcome → Prop
  | (c, .ioError) => c.writes = c0.writes ∨ c.writes = c0.writes ++ [[5, 0]]
  | (c, .badGreetingVersion _) => c.writes = c0.writes
  | (c, .badRequestVersion _) => c.writes = c0.writes ++ [[5, 0]]
  | (c, .unsupportedCommand _) => c.writes = c0.writes ++ [[5, 0], socks5ErrorReply 7]
  | (c, .unsupportedAtyp _) => c.writes = c0.writes ++ [[5, 0], socks5ErrorReply 8]
  | (c, .parsedDest _) => c.writes = c0.writes ++ [[5, 0]]

lemma socks5Handshake_writes (c0 : Conn) (chunks : List Nat) :
    handshakeWrites c0 (socks5Handshake c0 chunks) := by
  unfold socks5Handshake
  dsimp only
  split
  · exact Or.inl rfl
  · next c1 buf1 n1 heq1 =>
    have hw1 : c1.writes = c0.writes := readAtLeastInto_writes heq1
    split
    · exact hw1
    · split
      · exact Or.inl hw1
      · next c2 buf2 k2 heq2 =>
        have hw2 : c2.writes = c0.writes := (condRead_writes heq2).trans hw1
        have hw3 : (connWrite c2 [5, 0]).writes = c0.writes ++ [[5, 0]] := by
          simp [connWrite, hw2]
        split
        · exact Or.inr hw3
        · next c4 buf4 n4 heq4 =>
          have hw4 : c4.writes = c0.writes ++ [[5, 0]] :=
            (readAtLeastInto_writes heq4).trans hw3
          split
          · exact hw4
          · split
            · simp [handshakeWrites, connWrite, hw4]
            · split
              · split
                · exact Or.inr hw4
                · next c5 buf5 k5 heq5 =>
                  exact (condRead_writes heq5).trans hw4
              · split
                · split
                  · exact Or.inr hw4
                  · next c5 buf5 k5 heq5 =>
                    have hw5 : c5.writes = c0.writes ++ [[5, 0]] :=
                      (condRead_writes heq5).trans hw4
                    split
                    · exact Or.inr hw5
                    · next c6 buf6 k6 heq6 =>
                      exact (condRead_writes heq6).trans hw5
                · split
                  · split
                    · exact Or.inr hw4
                    · next c5 buf5 k5 heq5 =>
                      exact (condRead_writes heq5).trans hw4
                  · simp [handshakeWrites, connWrite, hw4]

set_option maxRecDepth 100000 in
/-- C8: per-outcome reply bytes of the SOCKS5 data plane, for any client
byte stream, any read chunking, and any dial outcome: a successful dial
puts exactly the method selection `05 00` and the success reply
`05 00 00 01 00 00 00 00 00 00` on the wire before the bidirectional copy;
a failed dial replies code `04`; a non-CONNECT command replies code `07`;
an unsupported ATYP replies code `08`; an I/O error in the handshake (and a
bad version byte) closes the connection with no reply beyond what was
already sent; and a connection accepted while the session is disconnected
is dropped without any bytes. -/
theorem C8_socks5_reply_bytes (c0 : Conn) (chunks : List Nat)
    (dialOk : SocksDest → Bool) :
    (∀ d, (handleSOCKS5 c0 chunks true dialOk).2 = .proxied d →
       (handleSOCKS5 c0 chunks true dialOk).1.writes
         = c0.writes ++ [[5, 0], socks5SuccessReply]) ∧
    (∀ d, (handleSOCKS5 c0 chunks true dialOk).2 = .dialFailed d →
       (handleSOCKS5 c0 chunks true dialOk).1.writes
         = c0.writes ++ [[5, 0], socks5ErrorReply 4]) ∧
    (∀ cc, (handleSOCKS5 c0 chunks true dialOk).2
        = .handshakeFailed (.unsupportedCommand cc) →
       (handleSOCKS5 c0 chunks true dialOk).1.writes
         = c0.writes ++ [[5, 0], socks5ErrorReply 7]) ∧
    (∀ a, (handleSOCKS5 c0 chunks true dialOk).2
        = .handshakeFailed (.unsupportedAtyp a) →
       (handleSOCKS5 c0 chunks true dialOk).1.writes
         = c0.writes ++ [[5, 0], socks5ErrorReply 8]) ∧
    ((handleSOCKS5 c0 chunks true dialOk).2 = .handshakeFailed .ioError →
       (handleSOCKS5 c0 chunks true dialOk).1.writes = c0.writes ∨
       (handleSOCKS5 c0 chunks true dialOk).1.writes = c0.writes ++ [[5, 0]]) ∧
    (∀ v, (handleSOCKS5 c0 chunks true dialOk).2
        = .handshakeFailed (.badGreetingVersion v) →
       (handleSOCKS5 c0 chunks true dialOk).1.writes = c0.writes) ∧
    (∀ v, (handleSOCKS5 c0 chunks true dialOk).2
        = .handshakeFailed (.badRequestVersion v) →
       (handleSOCKS5 c0 chunks true dialOk).1.writes = c0.writes ++ [[5, 0]]) ∧
    (handleSOCKS5 c0 chunks false dialOk = (c0, .sessionNotConnectedDrop)) := by
  have hfalse : handleSOCKS5 c0 chunks false dialOk = (c0, .sessionNotConnectedDrop) := rfl
  have hw := socks5Handshake_writes c0 chunks
  rcases hh : socks5Handshake c0 chunks with ⟨c1, out⟩
  rw [hh] at hw
  have hstep : handleSOCKS5 c0 chunks true dialOk =
      (match (c1, out) with
       | (c1, .parsedDest d) =>
           if dialOk d then (connWrite c1 socks5SuccessReply, .proxied d)
           else (connWrite c1 (socks5ErrorReply 4), .dialFailed d)
       | (c1, h) => (c1, .handshakeFailed h)) := by
    unfold handleSOCKS5
    rw [hh]
    simp
  cases out with
  | parsedDest d0 =>
      simp only [handshakeWrites] at hw
      cases hd : dialOk d0 with
      | false =>
          rw [hstep]
          simp [hd, connWrite, hw, hfalse]
      | true =>
          rw [hstep]
          simp [hd, connWrite, hw, hfalse]
  | ioError =>
      simp only [handshakeWrites] at hw
      rw [hstep]
      refine ⟨by simp, by simp, by simp, by simp, fun _ => hw, by simp, by simp, hfalse⟩
  | badGreetingVersion v0 =>
      simp only [handshakeWrites] at hw
      rw [hstep]
      simp [hw, hfalse]
  | badRequestVersion v0 =>
      simp only [handshakeWrites] at hw
      rw [hstep]
      simp [hw, hfalse]
  | unsupportedCommand cc0 =>
      simp only [handshakeWrites] at hw
      rw [hstep]
      simp [hw, hfalse]
  | unsupportedAtyp a0 =>
      simp only [handshakeWrites] at hw
      rw [hstep]
      simp [hw, hfalse]

set_option maxRecDepth 100000 in
/-- Closed-form witness for `C8_socks5_reply_bytes`: a complete CONNECT
request to 127.0.0.1:80 through a connected session whose dial succeeds. -/
theorem C8_socks5_reply_bytes_witness :
    ((handleSOCKS5 { input := [5, 1, 0, 5, 1, 0, 1, 127, 0, 0, 1, 0, 80], writes := [] }
        [] true (fun _ => true)).1.writes
      = [] ++ [[5, 0], socks5SuccessReply]) :=
  (C8_socks5_reply_bytes { input := [5, 1, 0, 5, 1, 0, 1, 127, 0, 0, 1, 0, 80], writes := [] }
      [] (fun _ => true)).1
    (.ipv4 [127, 0, 0, 1] 80) (by decide)

end LazyTunnel
